import Mathlib

/-!
Verification of the `saju` four-pillars calculation engine.

This file gives a shallow embedding, in Lean 4, of the core calculation
engine found in `sajuengine/engine.py` and the data model of
`sajuengine/models.py`, and proves (or refutes) the frozen claims about
the natural-language specification of the repository.

The repository's static lookup-table module (`sajuengine/data.py`) is not
present in the source tree; only its importers are.  Definitions that stand
in for tables of that module are marked `Modelled from the spec:` in their
doc comments and follow the specification's description of the tables
(symbol alphabets, solar-term boundary approximations, relation tables,
scoring weights), anchored by the calibration facts the spec fixes
(e.g. 2024-01-01 = 壬辰).

Python integer arithmetic conventions (floor division and nonnegative
remainder for positive divisors) are embedded through `pyDiv` / `pyMod`.
-/

namespace SajuEngine

/-- Python floor division `//`.  All divisors in the embedded code are
positive, where Python floor division agrees with Euclidean division. -/
def pyDiv (a b : Int) : Int := Int.ediv a b

/-- Python remainder `%`.  For the positive divisors used by the embedded
code, Python's remainder is nonnegative, matching Euclidean remainder. -/
def pyMod (a b : Int) : Int := Int.emod a b

/-- Modelled from the spec: the ordered 10-symbol stem alphabet `STEMS` of the
missing `sajuengine/data.py`.  The spec fixes a 10-element ordered sequence of
stem symbols; the ordering is anchored by the spec's calibration invariant
that JDN 2460311 (2024-01-01) has stem index `(2460311 + 7) % 10 = 8` with
symbol 壬. -/
def STEMS : List String :=
  ["甲", "乙", "丙", "丁", "戊", "己", "庚", "辛", "壬", "癸"]

/-- Modelled from the spec: the ordered 12-symbol branch alphabet `BRANCHES`
of the missing `sajuengine/data.py`, anchored by the spec's calibration
invariant that JDN 2460311 (2024-01-01) has branch index
`(2460311 + 5) % 12 = 4` with symbol 辰. -/
def BRANCHES : List String :=
  ["子", "丑", "寅", "卯", "辰", "巳", "午", "未", "申", "酉", "戌", "亥"]

/-- Embeds `compute_jdn` (engine.py lines 93-98): Julian Day Number of a
Gregorian calendar date. -/
def compute_jdn (year month day : Int) : Int :=
  let a := pyDiv (14 - month) 12
  let y := year + 4800 - a
  let m := month + 12 * a - 3
  day + pyDiv (153 * m + 2) 5 + 365 * y + pyDiv y 4 - pyDiv y 100 + pyDiv y 400 - 32045

/-- Embeds `jdn_to_day_stem_branch` (engine.py lines 101-107): day stem and
day branch from a JDN. -/
def jdn_to_day_stem_branch (jdn : Int) : String × String :=
  let stem_idx := (pyMod (jdn + 7) 10).toNat
  let branch_idx := (pyMod (jdn + 5) 12).toNat
  (STEMS.getD stem_idx "", BRANCHES.getD branch_idx "")

/-- The five elemental categories (五行) attached to every stem and branch. -/
inductive Element
  | wood
  | fire
  | earth
  | metal
  | water
deriving DecidableEq, Repr

/-- Modelled from the spec: the generative cycle table `ELEMENT_GENERATES`
of the missing `sajuengine/data.py` (the spec's "small fixed
cyclic-successor table" for generation). -/
def ELEMENT_GENERATES : Element → Element
  | .wood => .fire
  | .fire => .earth
  | .earth => .metal
  | .metal => .water
  | .water => .wood

/-- Modelled from the spec: the control cycle table `ELEMENT_CONTROLS` of the
missing `sajuengine/data.py`. -/
def ELEMENT_CONTROLS : Element → Element
  | .wood => .earth
  | .earth => .water
  | .water => .fire
  | .fire => .metal
  | .metal => .wood

/-- Modelled from the spec: the inverse generative table
`ELEMENT_GENERATED_BY` of the missing `sajuengine/data.py` (spec: the
generative table "plus their inverses"). -/
def ELEMENT_GENERATED_BY : Element → Element
  | .fire => .wood
  | .earth => .fire
  | .metal => .earth
  | .water => .metal
  | .wood => .water

/-- Modelled from the spec: the element attribute of `STEM_INFO` in the
missing `sajuengine/data.py` (each stem carries one of five elemental
categories; consecutive stem pairs share an element, following the
standard assignment consistent with the spec's day-stem examples).
Python raises `KeyError` on symbols outside the alphabet; the embedding
totalizes with an arbitrary default on such unreachable inputs. -/
def stemElement : String → Element
  | "甲" => .wood
  | "乙" => .wood
  | "丙" => .fire
  | "丁" => .fire
  | "戊" => .earth
  | "己" => .earth
  | "庚" => .metal
  | "辛" => .metal
  | "壬" => .water
  | "癸" => .water
  | _ => .earth

/-- Modelled from the spec: the polarity attribute of `STEM_INFO` in the
missing `sajuengine/data.py` (one of two polarity values per stem,
alternating 陽/陰 along the alphabet). -/
def stemYinyang : String → String
  | "甲" => "陽"
  | "丙" => "陽"
  | "戊" => "陽"
  | "庚" => "陽"
  | "壬" => "陽"
  | _ => "陰"

/-- Modelled from the spec: the element attribute of `BRANCH_INFO` in the
missing `sajuengine/data.py`. -/
def branchElement : String → Element
  | "子" => .water
  | "丑" => .earth
  | "寅" => .wood
  | "卯" => .wood
  | "辰" => .earth
  | "巳" => .fire
  | "午" => .fire
  | "未" => .earth
  | "申" => .metal
  | "酉" => .metal
  | "戌" => .earth
  | _ => .water

/-- Modelled from the spec: the polarity attribute of `BRANCH_INFO` in the
missing `sajuengine/data.py` (alternating 陽/陰 along the branch alphabet). -/
def branchYinyang : String → String
  | "子" => "陽"
  | "寅" => "陽"
  | "辰" => "陽"
  | "午" => "陽"
  | "申" => "陽"
  | "戌" => "陽"
  | _ => "陰"

/-- Modelled from the spec: the hidden-stem dictionary `HIDDEN_STEMS` of the
missing `sajuengine/data.py`, as an association list keyed by branch.  Per
the spec each branch maps to 2-3 hidden stems, primary first, with numeric
weights 1.0 / 0.7 / 0.3. -/
def HIDDEN_STEMS_TABLE : List (String × List (String × ℚ)) :=
  [("子", [("癸", 1), ("壬", 3 / 10)]),
   ("丑", [("己", 1), ("癸", 7 / 10), ("辛", 3 / 10)]),
   ("寅", [("甲", 1), ("丙", 7 / 10), ("戊", 3 / 10)]),
   ("卯", [("乙", 1), ("甲", 3 / 10)]),
   ("辰", [("戊", 1), ("乙", 7 / 10), ("癸", 3 / 10)]),
   ("巳", [("丙", 1), ("庚", 7 / 10), ("戊", 3 / 10)]),
   ("午", [("丁", 1), ("己", 7 / 10), ("丙", 3 / 10)]),
   ("未", [("己", 1), ("丁", 7 / 10), ("乙", 3 / 10)]),
   ("申", [("庚", 1), ("壬", 7 / 10), ("戊", 3 / 10)]),
   ("酉", [("辛", 1), ("庚", 3 / 10)]),
   ("戌", [("戊", 1), ("辛", 7 / 10), ("丁", 3 / 10)]),
   ("亥", [("壬", 1), ("甲", 7 / 10), ("戊", 3 / 10)])]

/-- Dictionary lookup `HIDDEN_STEMS[branch]`.  Python raises `KeyError` on a
symbol outside the branch alphabet; the embedding totalizes with the empty
list on such unreachable inputs. -/
def HIDDEN_STEMS (b : String) : List (String × ℚ) :=
  match HIDDEN_STEMS_TABLE.lookup b with
  | some l => l
  | none => []

/-- Embeds the dataclass `HiddenStemInfo` of models.py. -/
structure HiddenStemInfo where
  stem : String
  weight : ℚ
  role : String
deriving DecidableEq, Repr

/-- Embeds the dataclass `Pillar` of models.py (one stem-branch pair with
derived attributes). -/
structure Pillar where
  stem : String
  branch : String
  stem_element : Element
  branch_element : Element
  stem_yinyang : String
  branch_yinyang : String
  hidden_stems : List HiddenStemInfo
  ten_god : String
  twelve_stage : String
deriving DecidableEq, Repr

/-- Embeds the dataclass `Pillars` of models.py (the four-pillar chart, hour
pillar optional). -/
structure Pillars where
  year : Pillar
  month : Pillar
  day : Pillar
  hour : Option Pillar
deriving DecidableEq, Repr

/-- Embeds `Pillars.all_pillars` (models.py lines 63-68). -/
def Pillars.all_pillars (p : Pillars) : List Pillar :=
  [p.year, p.month, p.day] ++ (match p.hour with | some h => [h] | none => [])

/-- Embeds the property `Pillars.day_stem`. -/
def Pillars.day_stem (p : Pillars) : String := p.day.stem

/-- Embeds `_build_pillar` (engine.py lines 204-227): build a `Pillar` from a
stem and a branch, attaching elements, polarities and the weighted
hidden-stem list with roles assigned by weight thresholds. -/
def build_pillar (stem branch : String) : Pillar :=
  let hidden := (HIDDEN_STEMS branch).map (fun hw =>
    let role := if hw.2 ≥ 1 then "본기" else if hw.2 ≥ 1 / 2 then "중기" else "여기"
    HiddenStemInfo.mk hw.1 hw.2 role)
  Pillar.mk stem branch (stemElement stem) (branchElement branch)
    (stemYinyang stem) (branchYinyang branch) hidden "" ""

/-- One solar-term boundary record `(name, month, day, branch_index)` of the
table `SOLAR_TERM_BOUNDARIES`. -/
structure TermBoundary where
  name : String
  month : Int
  day : Int
  idx : Int
deriving DecidableEq, Repr

/-- Modelled from the spec: the table `SOLAR_TERM_BOUNDARIES` of the missing
`sajuengine/data.py` — 12 fixed month/day pairs, one per branch index
(0 = 寅 for the boundary at month 2 day 4, the spec's "start of spring",
through 11 = 丑), using the standard fixed calendar-day approximations the
spec describes. -/
def SOLAR_TERM_BOUNDARIES : List TermBoundary :=
  [TermBoundary.mk "소한" 1 6 11,
   TermBoundary.mk "입춘" 2 4 0,
   TermBoundary.mk "경칩" 3 6 1,
   TermBoundary.mk "청명" 4 5 2,
   TermBoundary.mk "입하" 5 6 3,
   TermBoundary.mk "망종" 6 6 4,
   TermBoundary.mk "소서" 7 7 5,
   TermBoundary.mk "입추" 8 8 6,
   TermBoundary.mk "백로" 9 8 7,
   TermBoundary.mk "한로" 10 8 8,
   TermBoundary.mk "입동" 11 7 9,
   TermBoundary.mk "대설" 12 7 10]

/-- Insertion step of a stable insertion sort with a boolean `le`. -/
def isortInsert (le : α → α → Bool) (a : α) : List α → List α
  | [] => [a]
  | b :: l => if le a b then a :: b :: l else b :: isortInsert le a l

/-- Stable insertion sort with a boolean `le`; embeds Python's `sorted`. -/
def isortBy (le : α → α → Bool) (l : List α) : List α :=
  l.foldr (isortInsert le) []

/-- Sort key used by `get_solar_term_month`: lexicographic on (month, day),
encoded as `month * 100 + day` (equal to tuple order since days are < 100). -/
def termKey (t : TermBoundary) : Int := t.month * 100 + t.day

/-- Embeds `get_solar_term_month` (engine.py lines 110-132): the solar-term
month branch index (0 = 寅 … 11 = 丑) of a solar date.  The Python function
receives the year but never reads it; the table is sorted by (month, day)
and the index of the last boundary not after the date is kept, starting
from the default 11 (丑月). -/
def get_solar_term_month (_year month day : Int) : Int :=
  let sorted_terms := isortBy (fun a b => termKey a ≤ termKey b) SOLAR_TERM_BOUNDARIES
  sorted_terms.foldl
    (fun cur t => if month > t.month ∨ (month = t.month ∧ day ≥ t.day) then t.idx else cur)
    11

/-- Embeds `get_year_for_pillars` (engine.py lines 135-141): the year used
for the year pillar, decremented before the approximate start-of-spring
boundary (month 2, day 4). -/
def get_year_for_pillars (year month day : Int) : Int :=
  if month < 2 ∨ (month = 2 ∧ day < 4) then year - 1 else year

/-- Modelled from the spec: the `MONTH_STEM_START` table of the missing
`sajuengine/data.py` — the fixed month-stem start table keyed by the year
stem (each year stem fixes which stem the first month branch starts on). -/
def MONTH_STEM_START : String → String
  | "甲" => "丙"
  | "己" => "丙"
  | "乙" => "戊"
  | "庚" => "戊"
  | "丙" => "庚"
  | "辛" => "庚"
  | "丁" => "壬"
  | "壬" => "壬"
  | _ => "甲"

/-- Embeds `calculate_year_pillar` (engine.py lines 146-153). -/
def calculate_year_pillar (year month day : Int) : Pillar :=
  let adj_year := get_year_for_pillars year month day
  let stem := STEMS.getD ((pyMod (adj_year - 4) 10).toNat) ""
  let branch := BRANCHES.getD ((pyMod (adj_year - 4) 12).toNat) ""
  build_pillar stem branch

/-- Embeds `calculate_month_pillar` (engine.py lines 156-175): month branch
from the solar-term month index, month stem from the year stem's start
stem advanced by the month index. -/
def calculate_month_pillar (year month day : Int) : Pillar :=
  let adj_year := get_year_for_pillars year month day
  let year_stem := STEMS.getD ((pyMod (adj_year - 4) 10).toNat) ""
  let month_branch_offset := get_solar_term_month year month day
  let branch := BRANCHES.getD ((pyMod (month_branch_offset + 2) 12).toNat) ""
  let start_stem := MONTH_STEM_START year_stem
  let start_stem_idx : Int := List.findIdx (fun s => s == start_stem) STEMS
  let stem := STEMS.getD ((pyMod (start_stem_idx + month_branch_offset) 10).toNat) ""
  build_pillar stem branch

/-- Latest boundary (by (month, day) order) of a list of term boundaries;
used to state the spec's selection rule for the month branch. -/
def latestTerm (l : List TermBoundary) : Option TermBoundary :=
  l.foldl
    (fun acc t =>
      match acc with
      | none => some t
      | some b => if termKey b < termKey t then some t else acc)
    none

/-- Written from the spec's words (claim C2): "the branch whose boundary is
the latest one not after the given date" — the boundary with the greatest
(month, day) key among those not after (month, day). -/
def specLatestBoundary (month day : Int) : Option TermBoundary :=
  latestTerm (SOLAR_TERM_BOUNDARIES.filter (fun t => termKey t ≤ month * 100 + day))

/-- Written from the spec's words (claim C2): "the prior year's last
boundary" — the boundary latest in (month, day) order within a calendar
year (the table does not vary by year). -/
def specPriorYearLastBoundary : Option TermBoundary :=
  latestTerm SOLAR_TERM_BOUNDARIES

/-- The engine's mapping from a solar-term month index to a branch symbol
(`calculate_month_pillar`: branch index = (index + 2) % 12). -/
def branchOfTermIdx (idx : Int) : String :=
  BRANCHES.getD ((pyMod (idx + 2) 12).toNat) ""

/-- C2 counterexample: the date 2024-01-01 precedes every solar-term
boundary of its calendar year, the prior year's last boundary (대설,
index 10) has branch 子, but the engine's month pillar branch for
2024-01-01 is 丑 — so the claim's wrap-around clause fails on the code. -/
theorem c2_wrap_counterexample :
    (calculate_month_pillar 2024 1 1).branch = "丑"
    ∧ specLatestBoundary 1 1 = none
    ∧ specPriorYearLastBoundary.map (fun t => branchOfTermIdx t.idx) = some "子"
    ∧ ("丑" : String) ≠ "子" := by
  refine ⟨by decide, by decide, by decide, by decide⟩

/-- C2 (amended): for every solar date with month 1-12 and day 1-31, the
month pillar's branch is the branch of the latest solar-term boundary not
after the date; when the date precedes every boundary of the calendar year
the engine does not wrap to the prior year's last boundary (子) but returns
the fixed default branch 丑 (index 11). -/
theorem c2_month_branch_amended (y month day : Int)
    (hm1 : 1 ≤ month) (hm2 : month ≤ 12) (hd1 : 1 ≤ day) (hd2 : day ≤ 31) :
    (calculate_month_pillar y month day).branch =
      (match specLatestBoundary month day with
       | some t => branchOfTermIdx t.idx
       | none => "丑") := by
  have key : ∀ (m : Nat), m < 13 → ∀ (d : Nat), d < 32 →
      BRANCHES.getD ((pyMod (get_solar_term_month 0 (m : Int) (d : Int) + 2) 12).toNat) "" =
        (match specLatestBoundary (m : Int) (d : Int) with
         | some t => branchOfTermIdx t.idx
         | none => "丑") := by decide
  have hmy : ((month.toNat : Int)) = month := Int.toNat_of_nonneg (by omega)
  have hdy : ((day.toNat : Int)) = day := Int.toNat_of_nonneg (by omega)
  have h2 := key month.toNat (by omega) day.toNat (by omega)
  rw [hmy, hdy] at h2
  have hbr : (calculate_month_pillar y month day).branch =
      BRANCHES.getD ((pyMod (get_solar_term_month y month day + 2) 12).toNat) "" := rfl
  have hyy : get_solar_term_month y month day = get_solar_term_month 0 month day := rfl
  rw [hbr, hyy]
  exact h2

/-- C2 witness: the amended statement instantiated at the concrete date
2024-03-10 (inside the 卯 month, boundary 경칩 3/6). -/
theorem c2_month_branch_amended_witness :
    (calculate_month_pillar 2024 3 10).branch =
      (match specLatestBoundary 3 10 with
       | some t => branchOfTermIdx t.idx
       | none => "丑") :=
  c2_month_branch_amended 2024 3 10 (by decide) (by decide) (by decide) (by decide)

/-- Embeds the dataclass `Interaction` of models.py (a detected relationship
between chart characters). -/
structure Interaction where
  type : String
  elements : List String
  positions : List String
  result : String
  name : String
  description : String
  severity : Int
  is_positive : Bool
deriving DecidableEq, Repr

/-- One entry of the branch-triad table: a fixed 3-branch set, its resulting
element and its display name. -/
structure TriadCombo where
  branches : List String
  result : String
  name : String
deriving DecidableEq, Repr

/-- Modelled from the spec: the table `BRANCH_THREE_COMBINATIONS` of the
missing `sajuengine/data.py` — each fixed 3-branch set mapped to a
resulting element (the four standard triads). -/
def BRANCH_THREE_COMBINATIONS : List TriadCombo :=
  [TriadCombo.mk ["申", "子", "辰"] "水" "신자진 수국",
   TriadCombo.mk ["寅", "午", "戌"] "火" "인오술 화국",
   TriadCombo.mk ["巳", "酉", "丑"] "金" "사유축 금국",
   TriadCombo.mk ["亥", "卯", "未"] "木" "해묘미 목국"]

/-- Embeds the `branches_with_pos` list built at the head of
`find_branch_interactions` (engine.py lines 409-413): position-labelled
branches of the present pillars, in year-month-day-hour order. -/
def branches_with_pos (p : Pillars) : List (String × String) :=
  [("년지", p.year.branch), ("월지", p.month.branch), ("일지", p.day.branch)]
    ++ (match p.hour with | some h => [("시지", h.branch)] | none => [])

/-- The position-labelled chart branches belonging to a triad set
(`matching` in engine.py line 456). -/
def triadMatching (p : Pillars) (c : TriadCombo) : List (String × String) :=
  (branches_with_pos p).filter (fun pb => c.branches.contains pb.2)

/-- Number of chart branch positions matching a triad set
(`len(matching)` in engine.py lines 457-458). -/
def triadMatchCount (p : Pillars) (c : TriadCombo) : Nat :=
  (triadMatching p c).length

/-- The interaction record appended for a matched triad (engine.py lines
459-468): full (완전) with severity 3 when at least 3 positions match,
partial (반합) with severity 1 otherwise. -/
def triadInteraction (matching : List (String × String)) (c : TriadCombo) : Interaction :=
  Interaction.mk "지지삼합" (matching.map Prod.snd) (matching.map Prod.fst) c.result
    (c.name ++ (if 3 ≤ matching.length then " (완전)" else " (반합)"))
    (String.intercalate "·" (matching.map Prod.snd) ++ "이(가) " ++ c.result
      ++ "국을 이루어 " ++ (if 3 ≤ matching.length then "강력한" else "부분적")
      ++ " " ++ c.result ++ "의 에너지를 형성합니다.")
    (if 3 ≤ matching.length then 3 else 1) true

/-- The per-triad-set body of the 3합 loop of `find_branch_interactions`
(engine.py lines 455-468): record one interaction when at least two
positions match, none otherwise. -/
def triadBlock (p : Pillars) (c : TriadCombo) : List Interaction :=
  if 2 ≤ triadMatchCount p c then [triadInteraction (triadMatching p c) c] else []

/-- Embeds the branch-triad (3합) section of `find_branch_interactions`
(engine.py lines 454-468): the triad interactions contributed to the
result list, one block per entry of `BRANCH_THREE_COMBINATIONS`. -/
def find_branch_interactions_triads (p : Pillars) : List Interaction :=
  BRANCH_THREE_COMBINATIONS.flatMap (triadBlock p)

/-- A chart whose year and month branches are both 申 and whose day branch
is 子 (hour unknown): three matching positions for the 申子辰 triad but
only two distinct members of the set. -/
def triadDupChart : Pillars :=
  Pillars.mk (build_pillar "庚" "申") (build_pillar "甲" "申") (build_pillar "壬" "子") none

/-- C3 counterexample: on a chart with branches 申, 申, 子 the engine records
a "complete" 申子辰 triad (severity 3) although the member 辰 is absent from
the chart, and records no "partial" interaction although at least two of the
chart's branches belong to the set — refuting both "exactly when" clauses of
the claim as stated. -/
theorem c3_triad_counterexample :
    (find_branch_interactions_triads triadDupChart).any
        (fun i => i.name == "신자진 수국 (완전)" && i.severity == 3) = true
    ∧ (find_branch_interactions_triads triadDupChart).any
        (fun i => i.severity == 1) = false
    ∧ (triadDupChart.all_pillars.map Pillar.branch).contains "辰" = false := by
  refine ⟨by decide, by decide, by decide⟩

/-- C3 (amended): for every chart and every fixed triad set, one triad
interaction is recorded exactly when at least 2 of the chart's branch
positions hold members of the set; it is the "complete" variant (name
suffixed (완전), severity 3) exactly when at least 3 positions do —
counting repeated branches once per position, not requiring all 3 distinct
members — and otherwise the "partial" variant (name suffixed (반합),
severity 1, lower than complete). -/
theorem c3_triads_amended (p : Pillars) (c : TriadCombo)
    (hc : c ∈ BRANCH_THREE_COMBINATIONS) :
    (2 ≤ triadMatchCount p c →
      (find_branch_interactions_triads p).any (fun i =>
        i.name == c.name ++ (if 3 ≤ triadMatchCount p c then " (완전)" else " (반합)")
          && i.severity == (if 3 ≤ triadMatchCount p c then (3 : Int) else 1)) = true)
    ∧ (triadMatchCount p c < 2 → triadBlock p c = [])
    ∧ (∀ i ∈ triadBlock p c,
        2 ≤ triadMatchCount p c
        ∧ i.severity = (if 3 ≤ triadMatchCount p c then 3 else 1)
        ∧ i.name = c.name ++ (if 3 ≤ triadMatchCount p c then " (완전)" else " (반합)")) := by
  refine ⟨?_, ?_, ?_⟩
  · intro hk
    rw [List.any_eq_true]
    refine ⟨triadInteraction (triadMatching p c) c, ?_, ?_⟩
    · simp only [find_branch_interactions_triads]
      rw [List.mem_flatMap]
      refine ⟨c, hc, ?_⟩
      simp only [triadBlock]
      rw [if_pos hk]
      exact List.mem_singleton_self _
    · simp only [triadInteraction, triadMatchCount]
      simp
  · intro hk
    simp only [triadBlock]
    rw [if_neg (by omega)]
  · intro i hi
    simp only [triadBlock] at hi
    by_cases hk : 2 ≤ triadMatchCount p c
    · rw [if_pos hk] at hi
      simp only [List.mem_singleton] at hi
      subst hi
      refine ⟨hk, ?_, ?_⟩ <;> simp [triadInteraction, triadMatchCount]
    · rw [if_neg hk] at hi
      exact absurd hi (List.not_mem_nil i)

/-- The fire triad entry 寅午戌 of the triad table. -/
def triadFireCombo : TriadCombo := TriadCombo.mk ["寅", "午", "戌"] "火" "인오술 화국"

/-- A chart carrying all three members of the 寅午戌 triad. -/
def triadFullChart : Pillars :=
  Pillars.mk (build_pillar "甲" "寅") (build_pillar "丙" "午") (build_pillar "庚" "戌") none

/-- C3 witness: the amended statement instantiated on a chart holding the
complete 寅午戌 triad. -/
theorem c3_triads_amended_witness :
    2 ≤ triadMatchCount triadFullChart triadFireCombo
    ∧ (find_branch_interactions_triads triadFullChart).any (fun i =>
        i.name == triadFireCombo.name
            ++ (if 3 ≤ triadMatchCount triadFullChart triadFireCombo then " (완전)" else " (반합)")
          && i.severity == (if 3 ≤ triadMatchCount triadFullChart triadFireCombo then (3 : Int) else 1)) = true :=
  ⟨by decide,
   (c3_triads_amended triadFullChart triadFireCombo (by decide)).1 (by decide)⟩

/-- Leap-year test of the proleptic Gregorian calendar used by Python's
`datetime.date`. -/
def isLeapYear (y : Int) : Bool :=
  (pyMod y 4 == 0 && pyMod y 100 != 0) || pyMod y 400 == 0

/-- Number of days of a month in Python's `datetime.date` calendar. -/
def daysInMonth (y m : Int) : Int :=
  if m = 2 then (if isLeapYear y then 29 else 28)
  else if m = 4 ∨ m = 6 ∨ m = 9 ∨ m = 11 then 30
  else 31

/-- Embeds the success condition of the `datetime.date(y, m, d)` constructor:
year 1-9999, month 1-12, day within the month; the constructor raises
`ValueError` exactly when this is false. -/
def isValidDate (y m d : Int) : Bool :=
  decide (1 ≤ y) && decide (y ≤ 9999) && decide (1 ≤ m) && decide (m ≤ 12)
    && decide (1 ≤ d) && decide (d ≤ daysInMonth y m)

/-- A calendar date as a plain (year, month, day) triple, embedding Python's
`datetime.date` values. -/
structure SDate where
  y : Int
  m : Int
  d : Int
deriving DecidableEq, Repr

/-- Encoding of a date for comparisons: Python's `date` objects compare
chronologically, which on valid dates (month ≤ 12, day ≤ 31) coincides with
the lexicographic (year, month, day) order embedded by this key. -/
def dateKey (a : SDate) : Int := a.y * 10000 + a.m * 100 + a.d

/-- Embeds the dataclass `BirthInput` of models.py. -/
structure BirthInput where
  year : Int
  month : Int
  day : Int
  hour : Option Int
  minute : Option Int
  calendar_type : String
  is_leap_month : Bool
  gender : Option String
  name : Option String
deriving DecidableEq, Repr

/-- Embeds `validate_input` (engine.py lines 47-88): the list of validation
error messages for a birth input.  `today` stands for Python's
`date.today()`.  Messages are embedded verbatim, except that the ASCII
quotes of the gender message are dropped.  The calendar-validity check runs
only when no range error was recorded and the calendar type is `solar`
(a `ValueError` of the date constructor appends the invalid-date message);
the future-date check also runs only for `solar`, and a `ValueError` there
is swallowed. -/
def validate_input (inp : BirthInput) (today : SDate) : List String :=
  let errors : List String := []
  let errors := if ¬(1900 ≤ inp.year ∧ inp.year ≤ 2100) then
    errors ++ ["년도는 1900~2100 사이여야 합니다."] else errors
  let errors := if ¬(1 ≤ inp.month ∧ inp.month ≤ 12) then
    errors ++ ["월은 1~12 사이여야 합니다."] else errors
  let errors := if ¬(1 ≤ inp.day ∧ inp.day ≤ 31) then
    errors ++ ["일은 1~31 사이여야 합니다."] else errors
  let errors := if errors = [] ∧ inp.calendar_type = "solar"
      ∧ isValidDate inp.year inp.month inp.day = false then
    errors ++ [toString inp.year ++ "년 " ++ toString inp.month ++ "월 "
      ++ toString inp.day ++ "일은 유효하지 않은 날짜입니다."] else errors
  let errors := match inp.hour with
    | some h => if ¬(0 ≤ h ∧ h ≤ 23) then
        errors ++ ["시간은 0~23 사이여야 합니다."] else errors
    | none => errors
  let errors := match inp.gender with
    | some g => if g ≠ "male" ∧ g ≠ "female" then
        errors ++ ["성별은 male 또는 female이어야 합니다."] else errors
    | none => errors
  let errors := if inp.calendar_type = "solar"
      ∧ isValidDate inp.year inp.month inp.day = true
      ∧ dateKey today < dateKey (SDate.mk inp.year inp.month inp.day) then
    errors ++ ["미래 날짜는 분석할 수 없습니다."] else errors
  errors

/-- C10: for every lunar-flagged input passing the plain range checks (year
1900-2100, month 1-12, day 1-31, hour 0-23 when given, sex token when
given), `validate_input` returns no error at all: the calendar-validity
check and the future-date check are both skipped for lunar inputs, so a
calendar-impossible or future lunar-flagged date validates cleanly. -/
theorem c10_lunar_skips_date_checks (inp : BirthInput) (today : SDate)
    (hc : inp.calendar_type = "lunar")
    (h1 : 1900 ≤ inp.year) (h2 : inp.year ≤ 2100)
    (h3 : 1 ≤ inp.month) (h4 : inp.month ≤ 12)
    (h5 : 1 ≤ inp.day) (h6 : inp.day ≤ 31)
    (h7 : ∀ h, inp.hour = some h → 0 ≤ h ∧ h ≤ 23)
    (h8 : ∀ g, inp.gender = some g → g = "male" ∨ g = "female") :
    validate_input inp today = [] := by
  have hcs : inp.calendar_type ≠ "solar" := by rw [hc]; decide
  rcases hh : inp.hour with _ | hr
  · rcases hg : inp.gender with _ | g
    · simp [validate_input, hcs, hh, hg, h1, h2, h3, h4, h5, h6]
    · rcases h8 g hg with rfl | rfl <;>
        simp [validate_input, hcs, hh, hg, h1, h2, h3, h4, h5, h6]
  · have h9 := h7 hr hh
    rcases hg : inp.gender with _ | g
    · simp [validate_input, hcs, hh, hg, h1, h2, h3, h4, h5, h6, h9.1, h9.2]
    · rcases h8 g hg with rfl | rfl <;>
        simp [validate_input, hcs, hh, hg, h1, h2, h3, h4, h5, h6, h9.1, h9.2]

/-- C10 witness: the calendar-impossible lunar-flagged date 2021-02-30,
which is also in the future relative to the reference date 2020-01-01,
passes validation with no error message. -/
theorem c10_lunar_skips_date_checks_witness :
    validate_input
      (BirthInput.mk 2021 2 30 none none "lunar" false (some "female") none)
      (SDate.mk 2020 1 1) = [] :=
  c10_lunar_skips_date_checks _ _ rfl (by decide) (by decide) (by decide)
    (by decide) (by decide) (by decide)
    (fun _ hh => nomatch hh)
    (fun g hg => Or.inr (by injection hg with h; exact h.symm))

/-- Embeds the dataclass `ElementStats` of models.py (five element counters,
their total and the weighting flag). -/
structure ElementStats where
  wood : ℚ
  fire : ℚ
  earth : ℚ
  metal : ℚ
  water : ℚ
  total : ℚ
  with_hidden_stems : Bool
deriving DecidableEq, Repr

/-- The running element-counter dictionary of `analyze_five_elements`
(`counts` in engine.py line 307), one exact-rational field per element key. -/
structure ECounts where
  wood : ℚ
  fire : ℚ
  earth : ℚ
  metal : ℚ
  water : ℚ
deriving DecidableEq, Repr

/-- One dictionary increment `counts[el] += w`. -/
def ECounts.add (c : ECounts) (e : Element) (w : ℚ) : ECounts :=
  match e with
  | .wood => ECounts.mk (c.wood + w) c.fire c.earth c.metal c.water
  | .fire => ECounts.mk c.wood (c.fire + w) c.earth c.metal c.water
  | .earth => ECounts.mk c.wood c.fire (c.earth + w) c.metal c.water
  | .metal => ECounts.mk c.wood c.fire c.earth (c.metal + w) c.water
  | .water => ECounts.mk c.wood c.fire c.earth c.metal (c.water + w)

/-- Embeds `sum(counts.values())` (engine.py line 322). -/
def ECounts.total (c : ECounts) : ℚ :=
  c.wood + c.fire + c.earth + c.metal + c.water

/-- Embeds Python `round(x, 1)` on the exact rational values arising in the
element analysis.  Every counter increment is 1.0 or a hidden-stem weight;
for totals that are integer multiples of 1/10 (the only ones produced by
the table's weights 1.0 / 0.7 / 0.3) the float computation recovers the
exact decimal and rounding is the identity, so the half-even tie rule is
never exercised. -/
def pyRound1 (q : ℚ) : ℚ := (round (q * 10) : ℤ) / 10

/-- The per-pillar body of the `analyze_five_elements` loop (engine.py lines
309-320): stem element +1, then either all weighted hidden stems
(include_hidden) or the branch element +1. -/
def pillarStep (include_hidden : Bool) (c : ECounts) (q : Pillar) : ECounts :=
  let c1 := c.add q.stem_element 1
  if include_hidden then
    q.hidden_stems.foldl (fun c2 hs => c2.add (stemElement hs.stem) hs.weight) c1
  else
    c1.add q.branch_element 1

/-- Embeds `analyze_five_elements` (engine.py lines 302-332). -/
def analyze_five_elements (p : Pillars) (include_hidden : Bool) : ElementStats :=
  let counts := p.all_pillars.foldl (pillarStep include_hidden) (ECounts.mk 0 0 0 0 0)
  let total := counts.total
  ElementStats.mk (pyRound1 counts.wood) (pyRound1 counts.fire) (pyRound1 counts.earth)
    (pyRound1 counts.metal) (pyRound1 counts.water) (pyRound1 total) include_hidden

theorem ECounts.total_add (c : ECounts) (e : Element) (w : ℚ) :
    (c.add e w).total = c.total + w := by
  cases e <;> simp [ECounts.add, ECounts.total] <;> ring

theorem hiddenFold_total (l : List HiddenStemInfo) (c : ECounts) :
    (l.foldl (fun c2 hs => c2.add (stemElement hs.stem) hs.weight) c).total
      = c.total + (l.map HiddenStemInfo.weight).sum := by
  induction l generalizing c with
  | nil => simp
  | cons hs t ih =>
      simp only [List.foldl_cons, List.map_cons, List.sum_cons, ih, ECounts.total_add]
      ring

theorem pillarStep_total (b : Bool) (c : ECounts) (q : Pillar) :
    (pillarStep b c q).total
      = c.total + (if b then 1 + (q.hidden_stems.map HiddenStemInfo.weight).sum else 2) := by
  cases b <;>
    simp [pillarStep, ECounts.total_add, hiddenFold_total] <;> ring

theorem foldPillars_total (b : Bool) (l : List Pillar) (c : ECounts) :
    (l.foldl (pillarStep b) c).total
      = c.total
        + (l.map (fun q =>
            if b then 1 + (q.hidden_stems.map HiddenStemInfo.weight).sum else 2)).sum := by
  induction l generalizing c with
  | nil => simp
  | cons q t ih =>
      simp only [List.foldl_cons, List.map_cons, List.sum_cons, ih, pillarStep_total]
      ring

theorem sum_tenths (l : List ℚ) (h : ∀ x ∈ l, ∃ k : ℤ, x = (k : ℚ) / 10) :
    ∃ K : ℤ, l.sum = (K : ℚ) / 10 := by
  induction l with
  | nil => exact ⟨0, by simp⟩
  | cons x t ih =>
      obtain ⟨k, hk⟩ := h x (List.mem_cons_self x t)
      obtain ⟨K, hK⟩ := ih (fun y hy => h y (List.mem_cons_of_mem x hy))
      refine ⟨k + K, ?_⟩
      simp only [List.sum_cons, hk, hK]
      push_cast
      ring

theorem pyRound1_tenth (k : ℤ) : pyRound1 ((k : ℚ) / 10) = (k : ℚ) / 10 := by
  have h : ((k : ℚ) / 10) * 10 = (k : ℚ) := by field_simp
  rw [pyRound1, h, round_intCast]

theorem initCounts_total : (ECounts.mk (0 : ℚ) 0 0 0 0).total = 0 := by
  simp [ECounts.total]

/-- C8: the unweighted elemental distribution totals exactly 8 with an hour
pillar and 6 without; the hidden-weighted distribution totals 4 (resp. 3)
— one per present pillar stem — plus the sum of each present branch's
hidden-stem weights.  The hypothesis records that all hidden-stem weights
are integer multiples of 1/10, as the table's weights 1.0 / 0.7 / 0.3 are. -/
theorem c8_element_totals (p : Pillars)
    (hW : ∀ q ∈ p.all_pillars, ∀ hs ∈ q.hidden_stems,
      ∃ k : ℤ, hs.weight = (k : ℚ) / 10) :
    (analyze_five_elements p false).total = (if p.hour.isSome then 8 else 6)
    ∧ (analyze_five_elements p true).total
        = (if p.hour.isSome then (4 : ℚ) else 3)
          + (p.all_pillars.map
              (fun q => (q.hidden_stems.map HiddenStemInfo.weight).sum)).sum := by
  have hw2 : ∀ q ∈ p.all_pillars,
      ∃ k : ℤ, (q.hidden_stems.map HiddenStemInfo.weight).sum = (k : ℚ) / 10 := by
    intro q hq
    refine sum_tenths _ ?_
    intro x hx
    obtain ⟨hs, hhs, rfl⟩ := List.mem_map.mp hx
    exact hW q hq hs hhs
  obtain ⟨K, hK⟩ := sum_tenths
    (p.all_pillars.map (fun q => (q.hidden_stems.map HiddenStemInfo.weight).sum))
    (by intro x hx
        obtain ⟨q, hq, rfl⟩ := List.mem_map.mp hx
        exact hw2 q hq)
  have hlen : (p.all_pillars.length : ℚ) = (if p.hour.isSome then 4 else 3) := by
    cases hh : p.hour <;> simp [Pillars.all_pillars, hh]
  constructor
  · show pyRound1 ((p.all_pillars.foldl (pillarStep false) (ECounts.mk 0 0 0 0 0)).total)
      = (if p.hour.isSome then 8 else 6)
    rw [foldPillars_total, initCounts_total, zero_add]
    have hmap : (p.all_pillars.map (fun q =>
        if (false : Bool) then 1 + (q.hidden_stems.map HiddenStemInfo.weight).sum
        else (2 : ℚ))).sum = 2 * (p.all_pillars.length : ℚ) := by
      induction p.all_pillars with
      | nil => simp
      | cons q t ih =>
          simp only [List.map_cons, List.sum_cons, List.length_cons, ih]
          push_cast
          ring
    rw [hmap, hlen]
    cases hh : p.hour with
    | none =>
        simp only [hh, Option.isSome_none]
        norm_num
        rw [show (6 : ℚ) = ((60 : ℤ) : ℚ) / 10 by norm_num]
        exact pyRound1_tenth 60
    | some hp =>
        simp only [hh, Option.isSome_some]
        norm_num
        rw [show (8 : ℚ) = ((80 : ℤ) : ℚ) / 10 by norm_num]
        exact pyRound1_tenth 80
  · show pyRound1 ((p.all_pillars.foldl (pillarStep true) (ECounts.mk 0 0 0 0 0)).total)
      = (if p.hour.isSome then (4 : ℚ) else 3)
        + (p.all_pillars.map
            (fun q => (q.hidden_stems.map HiddenStemInfo.weight).sum)).sum
    rw [foldPillars_total, initCounts_total, zero_add]
    have hsplit : (p.all_pillars.map
          (fun q => if (true : Bool) then 1 + (q.hidden_stems.map HiddenStemInfo.weight).sum
            else (2 : ℚ))).sum
        = (p.all_pillars.length : ℚ)
          + (p.all_pillars.map
              (fun q => (q.hidden_stems.map HiddenStemInfo.weight).sum)).sum := by
      induction p.all_pillars with
      | nil => simp
      | cons q t ih =>
          simp only [List.map_cons, List.sum_cons, List.length_cons, ih]
          push_cast
          norm_num
          ring
    rw [hsplit, hlen, hK]
    have hval : (if p.hour.isSome then (4 : ℚ) else 3) + (K : ℚ) / 10
        = (((if p.hour.isSome then (40 : ℤ) else 30) + K : ℤ) : ℚ) / 10 := by
      cases hh : p.hour <;> simp only [hh, Option.isSome_none, Option.isSome_some] <;>
        norm_num <;> ring
    rw [hval, pyRound1_tenth, ← hval]

/-- A chart built by the engine for 1990-05-15 at hour 14, used as a
concrete witness input. -/
def witnessChart : Pillars :=
  Pillars.mk (build_pillar "庚" "午") (build_pillar "辛" "巳")
    (build_pillar "丙" "寅") (some (build_pillar "乙" "未"))

/-- C8 witness: the totals theorem instantiated on a concrete chart with an
hour pillar. -/
theorem mem_of_lookup_eq_some {α β : Type} [BEq α] [LawfulBEq α] {a : α} {b : β} :
    ∀ {l : List (α × β)}, l.lookup a = some b → (a, b) ∈ l := by
  intro l
  induction l with
  | nil => intro h; simp [List.lookup] at h
  | cons p t ih =>
      intro h
      rcases p with ⟨k, v⟩
      simp only [List.lookup] at h
      cases hak : a == k with
      | true =>
          simp only [hak] at h
          have hka : a = k := eq_of_beq hak
          subst hka
          injection h with h2
          subst h2
          exact List.mem_cons_self _ _
      | false =>
          simp only [hak] at h
          exact List.mem_cons_of_mem _ (ih h)

theorem hidden_weights_tenths (b : String) :
    ∀ x ∈ HIDDEN_STEMS b, ∃ k : ℤ, x.2 = (k : ℚ) / 10 := by
  intro x hx
  unfold HIDDEN_STEMS at hx
  cases hl : HIDDEN_STEMS_TABLE.lookup b with
  | none => rw [hl] at hx; exact absurd hx (List.not_mem_nil x)
  | some l =>
      rw [hl] at hx
      have hmem : (b, l) ∈ HIDDEN_STEMS_TABLE := mem_of_lookup_eq_some hl
      have key : ∀ p ∈ HIDDEN_STEMS_TABLE, ∀ y ∈ p.2,
          y.2 = 1 ∨ y.2 = 7 / 10 ∨ y.2 = 3 / 10 := by
        simp only [HIDDEN_STEMS_TABLE, List.forall_mem_cons, List.forall_mem_nil]
        norm_num
      rcases key (b, l) hmem x hx with h | h | h
      · exact ⟨10, by rw [h]; norm_num⟩
      · exact ⟨7, by rw [h]; norm_num⟩
      · exact ⟨3, by rw [h]; norm_num⟩

theorem build_pillar_weights_tenths (s b : String) :
    ∀ hs ∈ (build_pillar s b).hidden_stems, ∃ k : ℤ, hs.weight = (k : ℚ) / 10 := by
  intro hs hhs
  simp only [build_pillar, List.mem_map] at hhs
  obtain ⟨hw, hmem, rfl⟩ := hhs
  exact hidden_weights_tenths b hw hmem

theorem c8_element_totals_witness :
    (analyze_five_elements witnessChart false).total = 8
    ∧ (analyze_five_elements witnessChart true).total
        = 4 + (witnessChart.all_pillars.map
            (fun q => (q.hidden_stems.map HiddenStemInfo.weight).sum)).sum := by
  have h := c8_element_totals witnessChart (by
    intro q hq hs hhs
    have hq2 : q = build_pillar "庚" "午" ∨ q = build_pillar "辛" "巳"
        ∨ q = build_pillar "丙" "寅" ∨ q = build_pillar "乙" "未" := by
      simp only [witnessChart, Pillars.all_pillars, List.mem_append, List.mem_cons,
        List.not_mem_nil, or_false] at hq
      tauto
    rcases hq2 with rfl | rfl | rfl | rfl <;>
      exact build_pillar_weights_tenths _ _ hs hhs)
  exact ⟨h.1, h.2⟩

/-- Modelled from the spec: the ordered five-super-group table
`TEN_GOD_GROUPS` of the missing `sajuengine/data.py` (five groups of two
ten-gods each, in the fixed enumeration order of the dict). -/
def TEN_GOD_GROUPS : List (String × List String) :=
  [("비겁", ["비견", "겁재"]),
   ("식상", ["식신", "상관"]),
   ("재성", ["편재", "정재"]),
   ("관성", ["편관", "정관"]),
   ("인성", ["편인", "정인"])]

/-- Embeds the `group_counts` computation of `calculate_ten_god_stats`
(engine.py lines 291-293): for each group, the sum of the occurrence
counts of its ten-gods, in the table's enumeration order. -/
def group_counts (counts : String → Nat) : List (String × Nat) :=
  TEN_GOD_GROUPS.map (fun g => (g.1, (g.2.map counts).sum))

/-- Embeds Python `max(group_counts, key=group_counts.get)` over the ordered
dict: fold keeping the current best, replacing it only on a strictly
greater count, so the first-encountered maximum wins. -/
def pyMaxPair (h : String × Nat) (t : List (String × Nat)) : String × Nat :=
  t.foldl (fun best x => if best.2 < x.2 then x else best) h

/-- Embeds the `dominant` selection of `calculate_ten_god_stats` (engine.py
line 294), including the `'비겁'` fallback for an empty dict. -/
def dominant_group (counts : String → Nat) : String :=
  match group_counts counts with
  | [] => "비겁"
  | h :: t => (pyMaxPair h t).1

theorem pyMaxPair_head_le (h : String × Nat) (t : List (String × Nat)) :
    h.2 ≤ (pyMaxPair h t).2 := by
  induction t generalizing h with
  | nil => exact le_refl _
  | cons x t ih =>
      show h.2 ≤ (pyMaxPair (if h.2 < x.2 then x else h) t).2
      by_cases hx : h.2 < x.2
      · rw [if_pos hx]
        exact le_of_lt (lt_of_lt_of_le hx (ih x))
      · rw [if_neg hx]
        exact ih h

theorem pyMaxPair_spec (h : String × Nat) (t : List (String × Nat)) :
    ∃ pre post, h :: t = pre ++ (pyMaxPair h t) :: post
      ∧ (∀ x ∈ pre, x.2 < (pyMaxPair h t).2)
      ∧ (∀ x ∈ post, x.2 ≤ (pyMaxPair h t).2) := by
  induction t generalizing h with
  | nil =>
      exact ⟨[], [], rfl, by intro x hx; exact absurd hx (List.not_mem_nil x),
        by intro x hx; exact absurd hx (List.not_mem_nil x)⟩
  | cons x t ih =>
      have hstep : pyMaxPair h (x :: t) = pyMaxPair (if h.2 < x.2 then x else h) t := rfl
      by_cases hx : h.2 < x.2
      · rw [hstep, if_pos hx]
        obtain ⟨pre, post, heq, hpre, hpost⟩ := ih x
        refine ⟨h :: pre, post, ?_, ?_, hpost⟩
        · rw [List.cons_append, ← heq]
        · intro z hz
          rcases List.mem_cons.mp hz with rfl | hz2
          · exact lt_of_lt_of_le hx (pyMaxPair_head_le x t)
          · exact hpre z hz2
      · rw [hstep, if_neg hx]
        obtain ⟨pre, post, heq, hpre, hpost⟩ := ih h
        cases pre with
        | nil =>
            simp only [List.nil_append] at heq
            injection heq with h1 h2
            refine ⟨[], x :: post, ?_, ?_, ?_⟩
            · rw [List.nil_append, ← h1, h2]
            · intro z hz; exact absurd hz (List.not_mem_nil z)
            · intro z hz
              rcases List.mem_cons.mp hz with rfl | hz2
              · rw [← h1]; omega
              · exact hpost z hz2
        | cons p pre2 =>
            simp only [List.cons_append] at heq
            injection heq with h1 h2
            refine ⟨h :: x :: pre2, post, ?_, ?_, hpost⟩
            · rw [List.cons_append, List.cons_append, ← h2, h1]
            · intro z hz
              have hhlt : h.2 < (pyMaxPair h t).2 := by
                have := hpre p (List.mem_cons_self p pre2)
                rw [← h1] at this
                exact this
              rcases List.mem_cons.mp hz with rfl | hz2
              · exact hhlt
              · rcases List.mem_cons.mp hz2 with rfl | hz3
                · omega
                · exact hpre z (List.mem_cons_of_mem p hz3)

/-- C9: for every occurrence-count map, the dominant super-group chosen by
`calculate_ten_god_stats` splits the ordered group-count list into a prefix
of groups with strictly smaller totals and a suffix of groups with totals
not exceeding it: it is a group of greatest total, and on ties the
first-encountered group in the fixed enumeration order of the table wins. -/
theorem c9_dominant_group_max (counts : String → Nat) :
    ∃ pre d post,
      group_counts counts = pre ++ d :: post
      ∧ dominant_group counts = d.1
      ∧ (∀ x ∈ pre, x.2 < d.2)
      ∧ (∀ x ∈ post, x.2 ≤ d.2) := by
  cases hg : group_counts counts with
  | nil => exact absurd hg (by simp [group_counts, TEN_GOD_GROUPS])
  | cons h t =>
      obtain ⟨pre, post, heq, hpre, hpost⟩ := pyMaxPair_spec h t
      refine ⟨pre, pyMaxPair h t, post, heq, ?_, hpre, hpost⟩
      simp [dominant_group, hg]

/-- Display character of an element, as used in factor descriptions. -/
def Element.char : Element → String
  | .wood => "木"
  | .fire => "火"
  | .earth => "土"
  | .metal => "金"
  | .water => "水"

/-- Modelled from the spec: the scoring-weight table `STRENGTH_RULES` of the
missing `sajuengine/data.py`.  The spec fixes only the shape — a
high-weight month-branch bonus (the engine comments it as worth up to 30
points), smaller day/hour-branch weights, smallest bare-stem weights, and
small hidden-stem bonuses with secondary above residual; the claims proved
below hold for any such values. -/
structure StrengthRules where
  deukryeong_same : Int
  deukryeong_generate : Int
  deukji_same : Int
  deukji_generate : Int
  deukse_same : Int
  deukse_generate : Int
  hidden_middle : Int
  hidden_residual : Int

/-- Modelled from the spec: concrete values for `STRENGTH_RULES`. -/
def STRENGTH_RULES : StrengthRules :=
  StrengthRules.mk 30 20 15 10 10 5 5 3

/-- Embeds the dataclass `StrengthFactor` of models.py. -/
structure StrengthFactor where
  factor : String
  description : String
  points : Int
deriving DecidableEq, Repr

/-- Embeds the dataclass `StrengthResult` of models.py. -/
structure StrengthResult where
  score : Int
  is_strong : Bool
  grade : String
  factors : List StrengthFactor
deriving DecidableEq, Repr

/-- One `factors.append(...)` paired with its `total_score += pts` in
`calculate_strength`: the factor is appended and its points added to the
running total (appending a zero-point factor leaves the total unchanged,
as in the source's 득령 else-branch). -/
def addF (st : Int × List StrengthFactor) (f : StrengthFactor) :
    Int × List StrengthFactor :=
  (st.1 + f.points, st.2 ++ [f])

/-- Block ① of `calculate_strength` (engine.py lines 564-581): the
month-branch command check against the day element, testing the month
branch's primary hidden stem (falling back to the branch element). -/
def deukryeongStep (p : Pillars) (st : Int × List StrengthFactor) :
    Int × List StrengthFactor :=
  let ds_element := stemElement p.day_stem
  let check_el := match p.month.hidden_stems.head? with
    | some hs => stemElement hs.stem
    | none => p.month.branch_element
  if check_el = ds_element then
    addF st (StrengthFactor.mk "득령"
      ("월지 " ++ p.month.branch ++ "의 본기가 일간과 같은 " ++ ds_element.char
        ++ " — 비겁(比) 관계") STRENGTH_RULES.deukryeong_same)
  else if ELEMENT_GENERATED_BY ds_element = check_el then
    addF st (StrengthFactor.mk "득령"
      ("월지 본기가 일간을 생하는 " ++ check_el.char ++ "→" ++ ds_element.char
        ++ " — 인성(印) 관계") STRENGTH_RULES.deukryeong_generate)
  else
    addF st (StrengthFactor.mk "득령"
      ("월지 본기(" ++ check_el.char ++ ")가 일간(" ++ ds_element.char
        ++ ")을 돕지 않음") 0)

/-- Block ② of `calculate_strength` (engine.py lines 583-597): the
day/hour-branch foundation check for one labelled optional pillar. -/
def deukjiStep (ds_element : Element) (st : Int × List StrengthFactor)
    (entry : String × Option Pillar) : Int × List StrengthFactor :=
  match entry.2 with
  | none => st
  | some q =>
      let bh_el := match q.hidden_stems.head? with
        | some hs => stemElement hs.stem
        | none => q.branch_element
      if bh_el = ds_element then
        addF st (StrengthFactor.mk "득지"
          (entry.1 ++ " " ++ q.branch ++ " 본기가 일간과 같은 오행")
          STRENGTH_RULES.deukji_same)
      else if ELEMENT_GENERATED_BY ds_element = bh_el then
        addF st (StrengthFactor.mk "득지"
          (entry.1 ++ " " ++ q.branch ++ " 본기가 일간을 생함")
          STRENGTH_RULES.deukji_generate)
      else st

/-- Block ③ of `calculate_strength` (engine.py lines 599-611): the bare-stem
support check for one labelled optional pillar. -/
def deukseStep (ds_element : Element) (st : Int × List StrengthFactor)
    (entry : String × Option Pillar) : Int × List StrengthFactor :=
  match entry.2 with
  | none => st
  | some q =>
      let p_el := stemElement q.stem
      if p_el = ds_element then
        addF st (StrengthFactor.mk "득세"
          (entry.1 ++ " " ++ q.stem ++ "이(가) 일간과 같은 " ++ ds_element.char)
          STRENGTH_RULES.deukse_same)
      else if ELEMENT_GENERATED_BY ds_element = p_el then
        addF st (StrengthFactor.mk "득세"
          (entry.1 ++ " " ++ q.stem ++ "이(가) 일간을 생하는 " ++ p_el.char)
          STRENGTH_RULES.deukse_generate)
      else st

/-- Block ④ of `calculate_strength` (engine.py lines 613-622): bonus for
every non-primary hidden stem (`hidden_stems[1:]`) sharing the day
element, with the secondary (중기) bonus above the residual one. -/
def hiddenStep (ds_element : Element) (st : Int × List StrengthFactor)
    (q : Pillar) : Int × List StrengthFactor :=
  q.hidden_stems.tail.foldl
    (fun st2 hs =>
      if stemElement hs.stem = ds_element then
        addF st2 (StrengthFactor.mk "지장간"
          (q.branch ++ " " ++ hs.role ++ " " ++ hs.stem ++ "이(가) 일간과 같은 오행")
          (if hs.role = "중기" then STRENGTH_RULES.hidden_middle
           else STRENGTH_RULES.hidden_residual))
      else st2)
    st

/-- The running (total_score, factors) state of `calculate_strength`
(engine.py lines 554-622) after all four scoring blocks. -/
def strengthState (p : Pillars) : Int × List StrengthFactor :=
  let ds_element := stemElement p.day_stem
  let st1 := deukryeongStep p (0, [])
  let st2 := [("일지", some p.day), ("시지", p.hour)].foldl (deukjiStep ds_element) st1
  let st3 := [("년간", some p.year), ("월간", some p.month),
              ("시간", p.hour)].foldl (deukseStep ds_element) st2
  p.all_pillars.foldl (hiddenStep ds_element) st3

/-- Embeds `calculate_strength` (engine.py lines 554-644): clamp the total
to [0, 100], grade it on the five fixed bands, and report the factors. -/
def calculate_strength (p : Pillars) : StrengthResult :=
  let st := strengthState p
  let score := min (max st.1 0) 100
  let grade := if score ≥ 70 then "극신강"
    else if score ≥ 50 then "신강"
    else if score ≥ 40 then "중화"
    else if score ≥ 20 then "신약"
    else "극신약"
  StrengthResult.mk score (decide (score ≥ 50)) grade st.2

/-- The auditability invariant: the factor points of a state sum to its
running total. -/
def FactorsSum (st : Int × List StrengthFactor) : Prop :=
  (st.2.map StrengthFactor.points).sum = st.1

theorem addF_inv (st : Int × List StrengthFactor) (f : StrengthFactor)
    (h : FactorsSum st) : FactorsSum (addF st f) := by
  unfold FactorsSum addF at *
  simp [h]

theorem foldl_factors_inv {α : Type}
    (f : Int × List StrengthFactor → α → Int × List StrengthFactor)
    (hf : ∀ st a, FactorsSum st → FactorsSum (f st a)) :
    ∀ (l : List α) (st), FactorsSum st → FactorsSum (l.foldl f st) := by
  intro l
  induction l with
  | nil => intro st h; exact h
  | cons a t ih => intro st h; exact ih (f st a) (hf st a h)

theorem deukryeongStep_inv (p : Pillars) (st : Int × List StrengthFactor)
    (h : FactorsSum st) : FactorsSum (deukryeongStep p st) := by
  unfold deukryeongStep
  dsimp only
  split_ifs <;> exact addF_inv _ _ h

theorem deukjiStep_inv (e : Element) (st : Int × List StrengthFactor)
    (entry : String × Option Pillar) (h : FactorsSum st) :
    FactorsSum (deukjiStep e st entry) := by
  unfold deukjiStep
  rcases entry with ⟨nm, _ | q⟩
  · exact h
  · dsimp only
    split_ifs <;> first | exact addF_inv _ _ h | exact h

theorem deukseStep_inv (e : Element) (st : Int × List StrengthFactor)
    (entry : String × Option Pillar) (h : FactorsSum st) :
    FactorsSum (deukseStep e st entry) := by
  unfold deukseStep
  rcases entry with ⟨nm, _ | q⟩
  · exact h
  · dsimp only
    split_ifs <;> first | exact addF_inv _ _ h | exact h

theorem hiddenStep_inv (e : Element) (st : Int × List StrengthFactor)
    (q : Pillar) (h : FactorsSum st) : FactorsSum (hiddenStep e st q) := by
  unfold hiddenStep
  refine foldl_factors_inv _ ?_ _ _ h
  intro st2 hs h2
  split_ifs <;> first | exact addF_inv _ _ h2 | exact h2

theorem strengthState_factors_sum (p : Pillars) : FactorsSum (strengthState p) := by
  unfold strengthState
  refine foldl_factors_inv _ (fun st a h => hiddenStep_inv _ st a h) _ _ ?_
  refine foldl_factors_inv _ (fun st a h => deukseStep_inv _ st a h) _ _ ?_
  refine foldl_factors_inv _ (fun st a h => deukjiStep_inv _ st a h) _ _ ?_
  refine deukryeongStep_inv _ _ ?_
  unfold FactorsSum
  simp

/-- C7: for every chart, the strength score is clamped to [0, 100];
`is_strong` holds exactly when the score is at least 50; the grade follows
the inclusive bands ≥70 극신강, ≥50 신강, ≥40 중화, ≥20 신약, else 극신약;
and the reported factors' point deltas sum to the pre-clamp running total
of the scorer. -/
theorem c7_strength_contract (p : Pillars) :
    0 ≤ (calculate_strength p).score
    ∧ (calculate_strength p).score ≤ 100
    ∧ ((calculate_strength p).is_strong = true ↔ 50 ≤ (calculate_strength p).score)
    ∧ (70 ≤ (calculate_strength p).score → (calculate_strength p).grade = "극신강")
    ∧ (50 ≤ (calculate_strength p).score → (calculate_strength p).score < 70 →
        (calculate_strength p).grade = "신강")
    ∧ (40 ≤ (calculate_strength p).score → (calculate_strength p).score < 50 →
        (calculate_strength p).grade = "중화")
    ∧ (20 ≤ (calculate_strength p).score → (calculate_strength p).score < 40 →
        (calculate_strength p).grade = "신약")
    ∧ ((calculate_strength p).score < 20 → (calculate_strength p).grade = "극신약")
    ∧ ((calculate_strength p).factors.map StrengthFactor.points).sum
        = (strengthState p).1 := by
  have hsc : (calculate_strength p).score = min (max (strengthState p).1 0) 100 := rfl
  have hgr : (calculate_strength p).grade =
      (if min (max (strengthState p).1 0) 100 ≥ 70 then "극신강"
       else if min (max (strengthState p).1 0) 100 ≥ 50 then "신강"
       else if min (max (strengthState p).1 0) 100 ≥ 40 then "중화"
       else if min (max (strengthState p).1 0) 100 ≥ 20 then "신약"
       else "극신약") := rfl
  have hstg : (calculate_strength p).is_strong
      = decide (min (max (strengthState p).1 0) 100 ≥ 50) := rfl
  have hfs : (calculate_strength p).factors = (strengthState p).2 := rfl
  refine ⟨?_, ?_, ?_, ?_, ?_, ?_, ?_, ?_, ?_⟩
  · rw [hsc]; omega
  · rw [hsc]; omega
  · rw [hstg, hsc]
    exact decide_eq_true_iff
  · intro h1; rw [hsc] at h1; rw [hgr]
    rw [if_pos (by omega)]
  · intro h1 h2; rw [hsc] at h1 h2; rw [hgr]
    split_ifs <;> first | rfl | omega
  · intro h1 h2; rw [hsc] at h1 h2; rw [hgr]
    split_ifs <;> first | rfl | omega
  · intro h1 h2; rw [hsc] at h1 h2; rw [hgr]
    split_ifs <;> first | rfl | omega
  · intro h1; rw [hsc] at h1; rw [hgr]
    split_ifs <;> first | rfl | omega
  · rw [hfs]
    exact strengthState_factors_sum p

/-- A concrete chart (the engine's 1990-05-15 14:00 chart) written with
explicit fields: year 庚午, month 辛巳, day 丙寅, hour 乙未, with the
standard hidden stems and roles. -/
def c7Chart : Pillars :=
  Pillars.mk
    (Pillar.mk "庚" "午" .metal .fire "陽" "陽"
      [HiddenStemInfo.mk "丁" 1 "본기", HiddenStemInfo.mk "己" (7 / 10) "중기",
       HiddenStemInfo.mk "丙" (3 / 10) "여기"] "" "")
    (Pillar.mk "辛" "巳" .metal .fire "陰" "陰"
      [HiddenStemInfo.mk "丙" 1 "본기", HiddenStemInfo.mk "庚" (7 / 10) "중기",
       HiddenStemInfo.mk "戊" (3 / 10) "여기"] "" "")
    (Pillar.mk "丙" "寅" .fire .wood "陽" "陽"
      [HiddenStemInfo.mk "甲" 1 "본기", HiddenStemInfo.mk "丙" (7 / 10) "중기",
       HiddenStemInfo.mk "戊" (3 / 10) "여기"] "" "")
    (some (Pillar.mk "乙" "未" .wood .earth "陰" "陰"
      [HiddenStemInfo.mk "己" 1 "본기", HiddenStemInfo.mk "丁" (7 / 10) "중기",
       HiddenStemInfo.mk "乙" (3 / 10) "여기"] "" ""))

/-- C7 witness: the contract instantiated on a concrete chart whose score is
58, giving grade 신강 and a strong day stem. -/
theorem c7_strength_contract_witness :
    50 ≤ (calculate_strength c7Chart).score
    ∧ (calculate_strength c7Chart).score < 70
    ∧ (calculate_strength c7Chart).grade = "신강"
    ∧ (calculate_strength c7Chart).is_strong = true :=
  ⟨by decide, by decide,
   (c7_strength_contract c7Chart).2.2.2.2.1 (by decide) (by decide),
   ((c7_strength_contract c7Chart).2.2.1).mpr (by decide)⟩

/-- Strict comparison of Python `date` objects via the date key. -/
def dateLtB (a b : SDate) : Bool := decide (dateKey a < dateKey b)

/-- Non-strict comparison of Python `date` objects via the date key. -/
def dateLeB (a b : SDate) : Bool := decide (dateKey a ≤ dateKey b)

/-- Day count of a date, `(a - b).days` being `jdnOf a - jdnOf b` for Python
`date` subtraction. -/
def jdnOf (s : SDate) : Int := compute_jdn s.y s.m s.d

/-- Embeds Python `round(days_diff / 3)` for an integer `days_diff`: the
fraction has denominator 3, so its fractional part is 0, 1/3 or 2/3 and the
half-even tie rule is never exercised; rounding to nearest equals
`(days_diff + 1) // 3`, and the float evaluation of `days_diff / 3` at the
day counts arising here cannot flip the decision. -/
def pyRoundDiv3 (d : Int) : Int := pyDiv (d + 1) 3

/-- Embeds the `term_dates` generation loop of `_calc_luck_start_age`
(engine.py lines 721-728): all boundary dates for the birth year and its
two neighbours, skipping dates the `date` constructor rejects. -/
def termDates (year : Int) : List SDate :=
  [year - 1, year, year + 1].flatMap (fun yy =>
    SOLAR_TERM_BOUNDARIES.filterMap (fun t =>
      if isValidDate yy t.month t.day then some (SDate.mk yy t.month t.day) else none))

/-- Embeds `term_dates.sort()` (engine.py line 730). -/
def sortedTermDates (year : Int) : List SDate :=
  isortBy dateLeB (termDates year)

/-- Embeds `_calc_luck_start_age` (engine.py lines 715-749): day count to
the first boundary strictly after the birth date (forward) or the last
boundary at-or-before it (backward), with the 15-day fallback, divided by
3 with rounding and floored at 1. -/
def calc_luck_start_age (birth : SDate) (is_forward : Bool) : Int :=
  let term_dates := sortedTermDates birth.y
  let days_diff : Int :=
    if is_forward then
      match (term_dates.filter (fun t => dateLtB birth t)).head? with
      | some t => jdnOf t - jdnOf birth
      | none => 15
    else
      match (term_dates.filter (fun t => dateLeB t birth)).getLast? with
      | some t => jdnOf birth - jdnOf t
      | none => 15
  max 1 (pyRoundDiv3 days_diff)

theorem mem_isortInsert {α : Type} (le : α → α → Bool) (a b : α) :
    ∀ (l : List α), b ∈ isortInsert le a l ↔ b = a ∨ b ∈ l := by
  intro l
  induction l with
  | nil => simp [isortInsert]
  | cons c t ih =>
      simp only [isortInsert]
      by_cases h : le a c = true
      · rw [if_pos h]
        simp [List.mem_cons]
      · rw [if_neg h]
        simp only [List.mem_cons, ih]
        tauto

theorem mem_isortBy {α : Type} (le : α → α → Bool) (b : α) :
    ∀ (l : List α), b ∈ isortBy le l ↔ b ∈ l := by
  intro l
  induction l with
  | nil => simp [isortBy]
  | cons c t ih =>
      show b ∈ isortInsert le c (isortBy le t) ↔ _
      rw [mem_isortInsert]
      simp only [List.mem_cons, ih]

theorem pairwise_isortInsert (a : SDate) (l : List SDate)
    (h : l.Pairwise fun x y => dateKey x ≤ dateKey y) :
    (isortInsert dateLeB a l).Pairwise fun x y => dateKey x ≤ dateKey y := by
  induction l with
  | nil => simp [isortInsert]
  | cons b t ih =>
      simp only [isortInsert]
      rcases List.pairwise_cons.mp h with ⟨hb, ht⟩
      by_cases hab : dateLeB a b = true
      · rw [if_pos hab]
        have h1 : dateKey a ≤ dateKey b := of_decide_eq_true hab
        refine List.pairwise_cons.mpr ⟨?_, h⟩
        intro z hz
        rcases List.mem_cons.mp hz with rfl | hz2
        · exact h1
        · exact le_trans h1 (hb z hz2)
      · rw [if_neg hab]
        have h1 : dateKey b ≤ dateKey a := by
          have h2 : ¬ dateKey a ≤ dateKey b := fun hc => hab (decide_eq_true hc)
          omega
        refine List.pairwise_cons.mpr ⟨?_, ih ht⟩
        intro z hz
        rcases (mem_isortInsert dateLeB a z _).mp hz with rfl | hz2
        · exact h1
        · exact hb z hz2

theorem pairwise_isortBy (l : List SDate) :
    (isortBy dateLeB l).Pairwise fun x y => dateKey x ≤ dateKey y := by
  induction l with
  | nil => simp [isortBy]
  | cons x t ih => exact pairwise_isortInsert x _ ih

theorem daysInMonth_ge (y m : Int) : 28 ≤ daysInMonth y m := by
  unfold daysInMonth
  split_ifs <;> omega

theorem daysInMonth_le (y m : Int) : daysInMonth y m ≤ 31 := by
  unfold daysInMonth
  split_ifs <;> omega

theorem isValidDate_of_le (y m d : Int) (h1 : 1 ≤ y) (h2 : y ≤ 9999)
    (h3 : 1 ≤ m) (h4 : m ≤ 12) (h5 : 1 ≤ d) (h6 : d ≤ 28) :
    isValidDate y m d = true := by
  have h7 := daysInMonth_ge y m
  unfold isValidDate
  simp only [Bool.and_eq_true, decide_eq_true_eq]
  omega

theorem isValidDate_bounds (y m d : Int) (h : isValidDate y m d = true) :
    1 ≤ y ∧ y ≤ 9999 ∧ 1 ≤ m ∧ m ≤ 12 ∧ 1 ≤ d ∧ d ≤ 31 := by
  have h7 := daysInMonth_le y m
  unfold isValidDate at h
  simp only [Bool.and_eq_true, decide_eq_true_eq] at h
  omega

theorem mem_termDates_of (year yy m d : Int)
    (hy : yy = year - 1 ∨ yy = year ∨ yy = year + 1)
    (ht : ∃ t ∈ SOLAR_TERM_BOUNDARIES, t.month = m ∧ t.day = d)
    (hv : isValidDate yy m d = true) : SDate.mk yy m d ∈ termDates year := by
  unfold termDates
  rw [List.mem_flatMap]
  refine ⟨yy, by rcases hy with rfl | rfl | rfl <;> simp, ?_⟩
  rw [List.mem_filterMap]
  obtain ⟨t, htm, h1, h2⟩ := ht
  refine ⟨t, htm, ?_⟩
  rw [h1, h2, if_pos hv]

theorem filter_head_spec (year : Int) (q : SDate → Bool) (t : SDate)
    (ht : ((sortedTermDates year).filter q).head? = some t) :
    t ∈ termDates year ∧ q t = true
    ∧ ∀ u ∈ termDates year, q u = true → dateKey t ≤ dateKey u := by
  have hp : ((sortedTermDates year).filter q).Pairwise
      (fun x y => dateKey x ≤ dateKey y) := (pairwise_isortBy _).filter q
  cases hF : (sortedTermDates year).filter q with
  | nil => rw [hF] at ht; simp at ht
  | cons x rest =>
      rw [hF] at ht
      simp only [List.head?_cons, Option.some.injEq] at ht
      subst ht
      have hx : x ∈ (sortedTermDates year).filter q := by
        rw [hF]; exact List.mem_cons_self _ _
      have hx2 := List.mem_filter.mp hx
      refine ⟨(mem_isortBy dateLeB x _).mp hx2.1, hx2.2, ?_⟩
      intro u hu hqu
      have hu2 : u ∈ (sortedTermDates year).filter q :=
        List.mem_filter.mpr ⟨(mem_isortBy dateLeB u _).mpr hu, hqu⟩
      rw [hF] at hu2
      rcases List.mem_cons.mp hu2 with rfl | hu3
      · exact le_refl _
      · rw [hF] at hp
        exact (List.pairwise_cons.mp hp).1 u hu3

theorem filter_getLast_spec (year : Int) (q : SDate → Bool) (t : SDate)
    (ht : ((sortedTermDates year).filter q).getLast? = some t) :
    t ∈ termDates year ∧ q t = true
    ∧ ∀ u ∈ termDates year, q u = true → dateKey u ≤ dateKey t := by
  have hrev : ((sortedTermDates year).filter q).reverse.head? = some t := by
    rw [List.head?_reverse]; exact ht
  have hp : ((sortedTermDates year).filter q).Pairwise
      (fun x y => dateKey x ≤ dateKey y) := (pairwise_isortBy _).filter q
  have hpr : ((sortedTermDates year).filter q).reverse.Pairwise
      (fun x y => dateKey y ≤ dateKey x) := by
    rw [List.pairwise_reverse]
    exact hp
  cases hF : ((sortedTermDates year).filter q).reverse with
  | nil => rw [hF] at hrev; simp at hrev
  | cons x rest =>
      rw [hF] at hrev
      simp only [List.head?_cons, Option.some.injEq] at hrev
      subst hrev
      have hx : x ∈ ((sortedTermDates year).filter q).reverse := by
        rw [hF]; exact List.mem_cons_self _ _
      rw [List.mem_reverse] at hx
      have hx2 := List.mem_filter.mp hx
      refine ⟨(mem_isortBy dateLeB x _).mp hx2.1, hx2.2, ?_⟩
      intro u hu hqu
      have hu2 : u ∈ ((sortedTermDates year).filter q).reverse :=
        List.mem_reverse.mpr
          (List.mem_filter.mpr ⟨(mem_isortBy dateLeB u _).mpr hu, hqu⟩)
      rw [hF] at hu2
      rcases List.mem_cons.mp hu2 with rfl | hu3
      · exact le_refl _
      · rw [hF] at hpr
        exact (List.pairwise_cons.mp hpr).1 u hu3

theorem exists_getLast?_of_ne_nil {α : Type} :
    ∀ (l : List α), l ≠ [] → ∃ t, l.getLast? = some t := by
  intro l
  induction l with
  | nil => intro h; exact absurd rfl h
  | cons a t ih =>
      intro _
      cases t with
      | nil => exact ⟨a, rfl⟩
      | cons b t2 =>
          obtain ⟨z, hz⟩ := ih (by simp)
          exact ⟨z, by rw [List.getLast?_cons_cons]; exact hz⟩

/-- C5: for every valid birth date in the supported year range, the luck
start age equals the day count — taken over the fixed boundary dates of
the birth year and its two neighbours — to the nearest boundary strictly
after the birth date (forward) or at-or-before it (backward), divided by 3
with rounding and floored at a minimum of 1. -/
theorem c5_luck_start_age_nearest (y m d : Int)
    (hy1 : 1900 ≤ y) (hy2 : y ≤ 2100) (hv : isValidDate y m d = true) :
    (∃ t ∈ termDates y, dateKey (SDate.mk y m d) < dateKey t
      ∧ (∀ u ∈ termDates y, dateKey (SDate.mk y m d) < dateKey u →
          dateKey t ≤ dateKey u)
      ∧ calc_luck_start_age (SDate.mk y m d) true
          = max 1 (pyRoundDiv3 (jdnOf t - jdnOf (SDate.mk y m d))))
    ∧ (∃ t ∈ termDates y, dateKey t ≤ dateKey (SDate.mk y m d)
      ∧ (∀ u ∈ termDates y, dateKey u ≤ dateKey (SDate.mk y m d) →
          dateKey u ≤ dateKey t)
      ∧ calc_luck_start_age (SDate.mk y m d) false
          = max 1 (pyRoundDiv3 (jdnOf (SDate.mk y m d) - jdnOf t))) := by
  obtain ⟨hb1, hb2, hb3, hb4, hb5, hb6⟩ := isValidDate_bounds y m d hv
  constructor
  · have hwv : isValidDate (y + 1) 2 4 = true :=
      isValidDate_of_le _ _ _ (by omega) (by omega) (by omega) (by omega)
        (by omega) (by omega)
    have hw : SDate.mk (y + 1) 2 4 ∈ termDates y :=
      mem_termDates_of y (y + 1) 2 4 (Or.inr (Or.inr rfl))
        ⟨TermBoundary.mk "입춘" 2 4 0, by simp [SOLAR_TERM_BOUNDARIES], rfl, rfl⟩ hwv
    have hwlt : dateKey (SDate.mk y m d) < dateKey (SDate.mk (y + 1) 2 4) := by
      simp only [dateKey]
      omega
    have hwf : SDate.mk (y + 1) 2 4 ∈
        (sortedTermDates y).filter (fun t => dateLtB (SDate.mk y m d) t) :=
      List.mem_filter.mpr ⟨(mem_isortBy dateLeB _ _).mpr hw, decide_eq_true hwlt⟩
    obtain ⟨t, ht⟩ : ∃ t, ((sortedTermDates y).filter
        (fun t => dateLtB (SDate.mk y m d) t)).head? = some t := by
      cases hF : (sortedTermDates y).filter (fun t => dateLtB (SDate.mk y m d) t) with
      | nil => rw [hF] at hwf; exact absurd hwf (List.not_mem_nil _)
      | cons x rest => exact ⟨x, rfl⟩
    obtain ⟨htm, htq, htmin⟩ := filter_head_spec y _ t ht
    refine ⟨t, htm, of_decide_eq_true htq,
      fun u hu hlt => htmin u hu (decide_eq_true hlt), ?_⟩
    have hcalc : calc_luck_start_age (SDate.mk y m d) true
        = max 1 (pyRoundDiv3 (match ((sortedTermDates y).filter
            (fun t => dateLtB (SDate.mk y m d) t)).head? with
          | some t => jdnOf t - jdnOf (SDate.mk y m d)
          | none => 15)) := rfl
    rw [hcalc, ht]
  · have hwv : isValidDate (y - 1) 12 7 = true :=
      isValidDate_of_le _ _ _ (by omega) (by omega) (by omega) (by omega)
        (by omega) (by omega)
    have hw : SDate.mk (y - 1) 12 7 ∈ termDates y :=
      mem_termDates_of y (y - 1) 12 7 (Or.inl rfl)
        ⟨TermBoundary.mk "대설" 12 7 10, by simp [SOLAR_TERM_BOUNDARIES], rfl, rfl⟩ hwv
    have hwle : dateKey (SDate.mk (y - 1) 12 7) ≤ dateKey (SDate.mk y m d) := by
      simp only [dateKey]
      omega
    have hwf : SDate.mk (y - 1) 12 7 ∈
        (sortedTermDates y).filter (fun t => dateLeB t (SDate.mk y m d)) :=
      List.mem_filter.mpr ⟨(mem_isortBy dateLeB _ _).mpr hw, decide_eq_true hwle⟩
    obtain ⟨t, ht⟩ : ∃ t, ((sortedTermDates y).filter
        (fun t => dateLeB t (SDate.mk y m d))).getLast? = some t := by
      refine exists_getLast?_of_ne_nil _ ?_
      intro h0
      rw [h0] at hwf
      exact absurd hwf (List.not_mem_nil _)
    obtain ⟨htm, htq, htmax⟩ := filter_getLast_spec y _ t ht
    refine ⟨t, htm, of_decide_eq_true htq,
      fun u hu hle => htmax u hu (decide_eq_true hle), ?_⟩
    have hcalc : calc_luck_start_age (SDate.mk y m d) false
        = max 1 (pyRoundDiv3 (match ((sortedTermDates y).filter
            (fun t => dateLeB t (SDate.mk y m d))).getLast? with
          | some t => jdnOf (SDate.mk y m d) - jdnOf t
          | none => 15)) := rfl
    rw [hcalc, ht]

/-- C5 witness: the nearest-boundary characterisation instantiated at the
concrete birth date 1990-05-15. -/
theorem c5_luck_start_age_nearest_witness :
    (∃ t ∈ termDates 1990, dateKey (SDate.mk 1990 5 15) < dateKey t
      ∧ (∀ u ∈ termDates 1990, dateKey (SDate.mk 1990 5 15) < dateKey u →
          dateKey t ≤ dateKey u)
      ∧ calc_luck_start_age (SDate.mk 1990 5 15) true
          = max 1 (pyRoundDiv3 (jdnOf t - jdnOf (SDate.mk 1990 5 15))))
    ∧ (∃ t ∈ termDates 1990, dateKey t ≤ dateKey (SDate.mk 1990 5 15)
      ∧ (∀ u ∈ termDates 1990, dateKey u ≤ dateKey (SDate.mk 1990 5 15) →
          dateKey u ≤ dateKey t)
      ∧ calc_luck_start_age (SDate.mk 1990 5 15) false
          = max 1 (pyRoundDiv3 (jdnOf (SDate.mk 1990 5 15) - jdnOf t))) :=
  c5_luck_start_age_nearest 1990 5 15 (by decide) (by decide) (by decide)

/-- Modelled from the spec: the ten-god relation function `get_ten_god` of
the missing `sajuengine/data.py` — per the spec a deterministic function of
(day stem, target stem) read from a fixed relation table, realised here by
the standard relational rules with polarity picking the 편/정 variant. -/
def get_ten_god (ds ts : String) : String :=
  let de := stemElement ds
  let te := stemElement ts
  let same_pol := stemYinyang ds == stemYinyang ts
  if te = de then (if same_pol then "비견" else "겁재")
  else if ELEMENT_GENERATES de = te then (if same_pol then "식신" else "상관")
  else if ELEMENT_CONTROLS de = te then (if same_pol then "편재" else "정재")
  else if ELEMENT_CONTROLS te = de then (if same_pol then "편관" else "정관")
  else (if same_pol then "편인" else "정인")

/-- Embeds the dataclass `LuckPillar` of models.py. -/
structure LuckPillar where
  stem : String
  branch : String
  element : Element
  ten_god : String
  start_age : Int
  end_age : Int
  start_year : Int
  end_year : Int
deriving DecidableEq, Repr

/-- Embeds the dataclass `LuckCycles` of models.py. -/
structure LuckCycles where
  start_age : Int
  direction : String
  pillars : List LuckPillar
  current_pillar : Option LuckPillar
deriving DecidableEq, Repr

/-- The direction predicate of `calculate_luck_cycles` (engine.py lines
662-667): forward for 양남 (yang year stem and male) or 음녀 (non-yang
year stem and non-male). -/
def luck_is_forward (gender : String) (year_stem_yy : String) : Bool :=
  let is_yang_stem := year_stem_yy == "陽"
  let is_male := gender == "male"
  (is_yang_stem && is_male) || (!is_yang_stem && !is_male)

/-- The body of the decade loop of `calculate_luck_cycles` (engine.py lines
679-697): the i-th luck pillar, stepping the month pillar's stem and branch
indices by ±(i+1) modulo the alphabet sizes and carrying its age and
calendar-year ranges. -/
def luckPillarAt (inp : BirthInput) (day_stem : String)
    (month_stem_idx month_branch_idx : Int) (is_forward : Bool)
    (start_age : Int) (i : Nat) : LuckPillar :=
  let offset : Int := if is_forward then ((i : Int) + 1) else -((i : Int) + 1)
  let stem_idx := (pyMod (month_stem_idx + offset) 10).toNat
  let branch_idx := (pyMod (month_branch_idx + offset) 12).toNat
  let stem := STEMS.getD stem_idx ""
  let branch := BRANCHES.getD branch_idx ""
  let element := stemElement stem
  let tg := get_ten_god day_stem stem
  let s_age := start_age + (i : Int) * 10
  let e_age := s_age + 9
  let s_year := inp.year + s_age
  let e_year := inp.year + e_age
  LuckPillar.mk stem branch element tg s_age e_age s_year e_year

/-- Embeds `calculate_luck_cycles` (engine.py lines 649-712).  `num_cycles`
carries the Python default 9 at call sites; `todayYear` stands for
`date.today().year` in the current-pillar selection.  `STEMS.index` /
`BRANCHES.index` are embedded with `List.findIdx`, which agrees wherever
the symbol is present (Python raises otherwise). -/
def calculate_luck_cycles (inp : BirthInput) (pillars : Pillars)
    (num_cycles : Nat) (todayYear : Int) : Option LuckCycles :=
  match inp.gender with
  | none => none
  | some g =>
      let is_forward := luck_is_forward g pillars.year.stem_yinyang
      let direction := if is_forward then "순행" else "역행"
      let birth_date := SDate.mk inp.year inp.month inp.day
      let start_age := calc_luck_start_age birth_date is_forward
      let month_stem_idx : Int := List.findIdx (fun s => s == pillars.month.stem) STEMS
      let month_branch_idx : Int := List.findIdx (fun b => b == pillars.month.branch) BRANCHES
      let luck_pillars := (List.range num_cycles).map
        (luckPillarAt inp pillars.day_stem month_stem_idx month_branch_idx
          is_forward start_age)
      let current_age := todayYear - inp.year
      let current_pillar := luck_pillars.find? (fun lp =>
        decide (lp.start_age ≤ current_age) && decide (current_age ≤ lp.end_age))
      some (LuckCycles.mk start_age direction luck_pillars current_pillar)

theorem luck_cycles_direction_eq (inp : BirthInput) (pillars : Pillars)
    (N : Nat) (todayYear : Int) (g : String) (hg : inp.gender = some g) :
    (calculate_luck_cycles inp pillars N todayYear).map LuckCycles.direction
      = some (if luck_is_forward g pillars.year.stem_yinyang then "순행" else "역행") := by
  unfold calculate_luck_cycles
  rw [hg]
  rfl

/-- C4: `calculate_luck_cycles` returns the defined unavailable result
(`none`) when sex is undeclared, and otherwise reports direction 순행
(forward) exactly when the year stem is yang and the declared sex male, or
the year stem yin and the sex female — and 역행 (backward) for the other
two declared combinations. -/
theorem c4_luck_direction (inp : BirthInput) (pillars : Pillars)
    (N : Nat) (todayYear : Int) :
    (inp.gender = none → calculate_luck_cycles inp pillars N todayYear = none)
    ∧ (∀ g, inp.gender = some g → (g = "male" ∨ g = "female") →
        (pillars.year.stem_yinyang = "陽" ∨ pillars.year.stem_yinyang = "陰") →
        (calculate_luck_cycles inp pillars N todayYear).map LuckCycles.direction
          = some (if (pillars.year.stem_yinyang = "陽" ∧ g = "male")
                    ∨ (pillars.year.stem_yinyang = "陰" ∧ g = "female")
                  then "순행" else "역행")) := by
  constructor
  · intro hg
    unfold calculate_luck_cycles
    rw [hg]
  · intro g hg hgmf hyy
    rw [luck_cycles_direction_eq inp pillars N todayYear g hg]
    rcases hyy with h | h <;> rcases hgmf with rfl | rfl <;> rw [h] <;> decide

/-- A concrete solar birth input, 1990-05-15 14:00, declared male. -/
def inpMale : BirthInput :=
  BirthInput.mk 1990 5 15 (some 14) none "solar" false (some "male") none

/-- The same birth input with sex undeclared. -/
def inpNoGender : BirthInput :=
  BirthInput.mk 1990 5 15 (some 14) none "solar" false none none

/-- A concrete solar birth input, 1990-05-15 14:00, declared female. -/
def inpFemale : BirthInput :=
  BirthInput.mk 1990 5 15 (some 14) none "solar" false (some "female") none

/-- C4 witness: undeclared sex yields `none`; a female with a yang year
stem (庚) yields the backward direction. -/
theorem c4_luck_direction_witness :
    calculate_luck_cycles inpNoGender c7Chart 9 2026 = none
    ∧ (calculate_luck_cycles inpFemale c7Chart 9 2026).map LuckCycles.direction
        = some "역행" :=
  ⟨(c4_luck_direction inpNoGender c7Chart 9 2026).1 rfl,
   by rw [(c4_luck_direction inpFemale c7Chart 9 2026).2 "female" rfl
        (Or.inr rfl) (Or.inl rfl)]
      decide⟩

/-- C6: for a declared sex, the luck cycle holds N decade pillars (N being
9 at the Python default); the k-th pillar steps the month pillar's stem and
branch indices by +(k+1) (forward) or −(k+1) (backward) modulo 10 and 12,
its age range is [start_age + 10k, start_age + 10k + 9], and its
calendar-year range is [birth_year + lower_age, birth_year + upper_age]. -/
theorem c6_luck_sequence (inp : BirthInput) (pillars : Pillars)
    (N : Nat) (todayYear : Int) (g : String) (hg : inp.gender = some g) :
    ∃ lc, calculate_luck_cycles inp pillars N todayYear = some lc
      ∧ lc.pillars.length = N
      ∧ ∀ k, k < N → ∃ lp, lc.pillars.get? k = some lp
          ∧ lp.stem = STEMS.getD ((pyMod
              ((List.findIdx (fun s => s == pillars.month.stem) STEMS : Int)
                + (if luck_is_forward g pillars.year.stem_yinyang
                   then ((k : Int) + 1) else -((k : Int) + 1))) 10).toNat) ""
          ∧ lp.branch = BRANCHES.getD ((pyMod
              ((List.findIdx (fun b => b == pillars.month.branch) BRANCHES : Int)
                + (if luck_is_forward g pillars.year.stem_yinyang
                   then ((k : Int) + 1) else -((k : Int) + 1))) 12).toNat) ""
          ∧ lp.start_age = lc.start_age + (k : Int) * 10
          ∧ lp.end_age = lc.start_age + (k : Int) * 10 + 9
          ∧ lp.start_year = inp.year + lp.start_age
          ∧ lp.end_year = inp.year + lp.end_age := by
  cases hcalc : calculate_luck_cycles inp pillars N todayYear with
  | none =>
      unfold calculate_luck_cycles at hcalc
      rw [hg] at hcalc
      exact absurd hcalc (by simp)
  | some lc =>
      unfold calculate_luck_cycles at hcalc
      rw [hg] at hcalc
      dsimp only at hcalc
      injection hcalc with h2
      subst h2
      refine ⟨_, rfl, ?_, ?_⟩
      · show ((List.range N).map _).length = N
        simp
      · intro k hk
        refine ⟨luckPillarAt inp pillars.day_stem
            (List.findIdx (fun s => s == pillars.month.stem) STEMS : Int)
            (List.findIdx (fun b => b == pillars.month.branch) BRANCHES : Int)
            (luck_is_forward g pillars.year.stem_yinyang)
            (calc_luck_start_age (SDate.mk inp.year inp.month inp.day)
              (luck_is_forward g pillars.year.stem_yinyang)) k,
          ?_, rfl, rfl, rfl, rfl, rfl, rfl⟩
        show ((List.range N).map _).get? k = _
        rw [List.get?_map, List.get?_range hk]
        rfl

/-- C6 witness: the sequence theorem applied to a concrete male input and
chart with the default nine cycles. -/
theorem c6_luck_sequence_witness :
    (calculate_luck_cycles inpMale c7Chart 9 2026).map
        (fun lc => lc.pillars.length) = some 9 := by
  obtain ⟨lc, h1, h2, h3⟩ := c6_luck_sequence inpMale c7Chart 9 2026 "male" rfl
  rw [h1]
  simp [h2]

/-- C1: `compute_jdn 2024 1 1` equals 2460311; `jdn_to_day_stem_branch` maps
any JDN `j` to the stem at index `(j + 7) % 10` and the branch at index
`(j + 5) % 12` of the fixed alphabets; and hence the day pillar of
2024-01-01 resolves to stem 壬 and branch 辰. -/
theorem c1_day_pillar_calibration :
    compute_jdn 2024 1 1 = 2460311
    ∧ (∀ j : Int, jdn_to_day_stem_branch j =
        (STEMS.getD ((pyMod (j + 7) 10).toNat) "",
         BRANCHES.getD ((pyMod (j + 5) 12).toNat) ""))
    ∧ jdn_to_day_stem_branch (compute_jdn 2024 1 1) = ("壬", "辰") :=
  ⟨by decide, fun _ => rfl, by decide⟩

end SajuEngine
